import Mathlib

/-!
# Verification of `scripts/extract_pptx_data.py`

A shallow embedding of the PPTX-to-JSON extraction script. The script walks a
presentation's slides and shapes, collects normalized text, speaker notes and
shape geometry, and serializes one JSON payload.

Modelling conventions:
* Python strings are Lean `String`s; the Python string methods used by the
  script (`str.strip`, `str.replace("\n", " ")`, `str.splitlines`) are modelled
  character-by-character over `String.data`.
* A Python attribute access that may raise is modelled by `Attr α`:
  `Attr.raises` is an access that throws, `Attr.val a` a successful access.
* A Python attribute that may be absent or `None` is modelled by `Option`;
  `getattr(x, "a", d)` with an absent attribute is `Option.getD d`.
* `getattr(shape, "has_text_frame", False) and shape.has_text_frame` collapses
  to a single `Bool` field (`false` models both "absent" and "False").
-/

namespace PptxExtract

/-- The ASCII whitespace characters recognized by Python `str.strip()`. -/
def pyIsSpace (c : Char) : Bool :=
  c = ' ' || c = '\t' || c = '\n' || c = '\r' || c = '\x0b' || c = '\x0c'

/-- Strip leading and trailing whitespace from a character list. -/
def stripList (l : List Char) : List Char :=
  (l.dropWhile pyIsSpace).rdropWhile pyIsSpace

/-- Models Python `str.strip()` (with no argument): remove leading and
trailing whitespace. -/
def pyStrip (s : String) : String := ⟨stripList s.data⟩

/-- Models Python `str.replace("\n", " ")`: the pattern is a single character,
so the call replaces every newline character by one space. -/
def pyReplaceNl (s : String) : String :=
  ⟨s.data.map (fun c => if c = '\n' then ' ' else c)⟩

/-- Models Python `str.splitlines()` on the line boundaries `\r\n`, `\n`, `\r`:
no entry is produced for a terminating line boundary. -/
def splitlinesAux : List Char → List Char → List (List Char)
  | [], acc => if acc.isEmpty then [] else [acc.reverse]
  | '\r' :: '\n' :: rest, acc => acc.reverse :: splitlinesAux rest []
  | '\n' :: rest, acc => acc.reverse :: splitlinesAux rest []
  | '\r' :: rest, acc => acc.reverse :: splitlinesAux rest []
  | c :: rest, acc => splitlinesAux rest (c :: acc)

/-- Models Python `str.splitlines()`. -/
def pySplitlines (s : String) : List String :=
  (splitlinesAux s.data []).map (fun cs => ⟨cs⟩)

/-- A Python attribute access that may raise an exception. -/
inductive Attr (α : Type) where
  | raises : Attr α
  | val : α → Attr α
deriving DecidableEq, Repr

/-- A notes text frame: its `text` attribute (`None` modelled as `none`),
whose access may raise. -/
structure NotesTextFrame where
  text : Attr (Option String)
deriving DecidableEq, Repr

/-- A notes slide: its `notes_text_frame` attribute (`None`/falsy modelled as
`none`), whose access may raise. -/
structure NotesSlideObj where
  notes_text_frame : Attr (Option NotesTextFrame)
deriving DecidableEq, Repr

/-- A shape of a slide. `has_text_frame` is the capability flag (absent
modelled as `false`); `text` is the raw text (`None` as `none`); the four
geometry attributes are `none` when absent. -/
structure Shape where
  has_text_frame : Bool
  text : Option String
  left : Option Int
  top : Option Int
  width : Option Int
  height : Option Int
deriving DecidableEq, Repr

/-- A slide: its shapes and the notes-related attributes, each of whose
accesses may raise. -/
structure Slide where
  shapes : List Shape
  has_notes_slide : Attr Bool
  notes_slide : Attr (Option NotesSlideObj)
deriving DecidableEq, Repr

/-- Embeds `read_notes` (lines 9-18 of the script): inside a
`try/except Exception` block, return `""` when the slide has no notes slide,
otherwise return the stripped notes text when the notes slide and its text
frame are both truthy; every raised exception and every fall-through returns
`""`. -/
def read_notes (slide : Slide) : String :=
  match slide.has_notes_slide with
  | .raises => ""
  | .val false => ""
  | .val true =>
    match slide.notes_slide with
    | .raises => ""
    | .val none => ""
    | .val (some ns) =>
      match ns.notes_text_frame with
      | .raises => ""
      | .val none => ""
      | .val (some tf) =>
        match tf.text with
        | .raises => ""
        | .val t => pyStrip (t.getD "")

/-- Embeds `int(getattr(shape, "left", 0) or 0)` (lines 45-48, 66-67): an
absent attribute defaults to `0`, and a falsy value (`0`) coalesces to `0`. -/
def geomVal (o : Option Int) : Int :=
  match o with
  | none => 0
  | some v => if v = 0 then 0 else v

/-- One entry of the `textShapes` output sequence (lines 43-49). -/
structure ShapeRecord where
  text : String
  left : Int
  top : Int
  width : Int
  height : Int
deriving DecidableEq, Repr

/-- Embeds line 40: `text.replace("\n", " ").strip()`. -/
def normalizeText (t : String) : String := pyStrip (pyReplaceNl t)

/-- Embeds the shape loop (lines 36-50): for each shape with a text frame
whose stripped text is non-empty, append the normalized text to `textBlocks`
and a geometry record to `textShapes`. Returns `(textBlocks, textShapes)`. -/
def extractShapes : List Shape → List String × List ShapeRecord
  | [] => ([], [])
  | sh :: rest =>
    let tail := extractShapes rest
    if sh.has_text_frame then
      let text := pyStrip (sh.text.getD "")
      if text = "" then tail
      else
        let normalized := normalizeText text
        (normalized :: tail.1,
          { text := normalized, left := geomVal sh.left, top := geomVal sh.top,
            width := geomVal sh.width, height := geomVal sh.height } :: tail.2)
    else tail

/-- A shape contributes to the output iff it has a text frame and its
stripped text is non-empty (the two guards at lines 37-39). -/
def contributes (sh : Shape) : Bool :=
  sh.has_text_frame && (pyStrip (sh.text.getD "") != "")

/-- The normalized text a contributing shape appends to `textBlocks`. -/
def normalOf (sh : Shape) : String :=
  normalizeText (pyStrip (sh.text.getD ""))

/-- The geometry record a contributing shape appends to `textShapes`. -/
def recordOf (sh : Shape) : ShapeRecord :=
  { text := normalOf sh, left := geomVal sh.left, top := geomVal sh.top,
    width := geomVal sh.width, height := geomVal sh.height }

/-- Embeds line 53: `[line.strip() for line in notes_text.splitlines()
if line.strip()] if notes_text else []`. -/
def processNotes (notes_text : String) : List String :=
  if notes_text = "" then []
  else ((pySplitlines notes_text).filter (fun line => pyStrip line != "")).map pyStrip

/-- One entry of the output `slides` array (lines 55-62). -/
structure SlideRecord where
  page : Nat
  textBlocks : List String
  notes : List String
  textShapes : List ShapeRecord
deriving DecidableEq, Repr

/-- Embeds one iteration of the slide loop (lines 33-62). -/
def extractSlide (page : Nat) (slide : Slide) : SlideRecord :=
  let pair := extractShapes slide.shapes
  { page := page
    textBlocks := pair.1
    notes := processNotes (read_notes slide)
    textShapes := pair.2 }

/-- Embeds `for idx, slide in enumerate(prs.slides, start=1)` (line 33). -/
def extractSlides : Nat → List Slide → List SlideRecord
  | _, [] => []
  | idx, s :: rest => extractSlide idx s :: extractSlides (idx + 1) rest

/-- The in-memory presentation produced by the external library. -/
structure PresentationData where
  slides : List Slide
  slide_width : Option Int
  slide_height : Option Int
deriving DecidableEq, Repr

/-- The output payload (lines 64-69). -/
structure Payload where
  slideCount : Nat
  slideWidth : Int
  slideHeight : Int
  slides : List SlideRecord
deriving DecidableEq, Repr

/-- Embeds lines 32-69: build the full output payload from a presentation. -/
def buildPayload (prs : PresentationData) : Payload :=
  { slideCount := prs.slides.length
    slideWidth := geomVal prs.slide_width
    slideHeight := geomVal prs.slide_height
    slides := extractSlides 1 prs.slides }

/-- The observable filesystem events of one run (lines 71-72). -/
inductive Event where
  | mkdirParents : Event
  | writeOutput : Payload → Event
deriving DecidableEq, Repr

/-- Embeds the effect structure of `main` (lines 21-72): loading the
presentation may raise (propagated, nothing written, non-zero exit); on
success the directory creation and the single output write happen only after
every slide has been processed. Returns the event trace and the success
flag (`true` = exit status 0). -/
def runMain (load : Attr PresentationData) : List Event × Bool :=
  match load with
  | .raises => ([], false)
  | .val prs => ([Event.mkdirParents, Event.writeOutput (buildPayload prs)], true)

/-- A run of the program as a relation between the load result and the
observable outcome; the program is a function, so this is its graph. -/
def ProgramRun (load : Attr PresentationData) (out : List Event × Bool) : Prop :=
  runMain load = out

/-- Sample shape with a multi-line text and full geometry. -/
def sampleShape : Shape :=
  { has_text_frame := true, text := some "Hello\nWorld",
    left := some 0, top := none, width := some 100, height := some 50 }

/-- Sample shape whose text is whitespace only. -/
def wsShape : Shape :=
  { has_text_frame := true, text := some "  \n ",
    left := some 1, top := some 2, width := some 3, height := some 4 }

/-- Sample shape without a text frame. -/
def noTfShape : Shape :=
  { has_text_frame := false, text := none,
    left := none, top := none, width := none, height := none }

/-- Sample slide with shapes and notes. -/
def sampleSlide1 : Slide :=
  { shapes := [sampleShape, wsShape, noTfShape],
    has_notes_slide := .val true,
    notes_slide := .val (some ⟨.val (some ⟨.val (some "A\n\nB\n  \n")⟩)⟩) }

/-- Sample slide with no shapes, no notes slide, and a notes accessor that
would raise if it were reached. -/
def sampleSlide2 : Slide :=
  { shapes := [], has_notes_slide := .val false, notes_slide := .raises }

/-- Sample presentation with two slides. -/
def samplePrs : PresentationData :=
  { slides := [sampleSlide1, sampleSlide2],
    slide_width := some 9144000, slide_height := none }

/-! ## Helper lemmas about the string model -/

lemma rdropWhile_head {α : Type} (p : α → Bool) (m : List α) (y : α) (ys : List α)
    (h : m.rdropWhile p = y :: ys) : ∃ zs, m = y :: zs := by
  obtain ⟨t, ht⟩ := List.dropWhile_suffix (l := m.reverse) p
  have hr : m.rdropWhile p = (m.reverse.dropWhile p).reverse := by
    simp [List.rdropWhile]
  have hm : m = (m.reverse.dropWhile p).reverse ++ t.reverse := by
    have := congrArg List.reverse ht
    simpa [List.reverse_append] using this.symm
  rw [← hr, h] at hm
  exact ⟨ys ++ t.reverse, by simpa using hm⟩

lemma dropWhile_rdropWhile_of_fixed {α : Type} {p : α → Bool} {m : List α}
    (hm : m.dropWhile p = m) : (m.rdropWhile p).dropWhile p = m.rdropWhile p := by
  cases h : m.rdropWhile p with
  | nil => simp
  | cons y ys =>
    obtain ⟨zs, hzs⟩ := rdropWhile_head p m y ys h
    have hpy : p y = false := by
      by_contra hpy
      have hpy' : p y = true := by simpa using hpy
      rw [hzs, List.dropWhile_cons_of_pos hpy'] at hm
      have hlen := congrArg List.length hm
      have hle : (zs.dropWhile p).length ≤ zs.length :=
        ((List.dropWhile_suffix (l := zs) p).sublist).length_le
      simp at hlen
      omega
    rw [List.dropWhile_cons_of_neg (by simp [hpy])]

lemma stripList_idem (l : List Char) : stripList (stripList l) = stripList l := by
  unfold stripList
  have h1 : (l.dropWhile pyIsSpace).dropWhile pyIsSpace = l.dropWhile pyIsSpace :=
    List.dropWhile_idempotent pyIsSpace l
  rw [dropWhile_rdropWhile_of_fixed h1, List.rdropWhile_idempotent]

lemma data_pyStrip (s : String) : (pyStrip s).data = stripList s.data := rfl

lemma pyStrip_idem (s : String) : pyStrip (pyStrip s) = pyStrip s := by
  show (⟨stripList (stripList s.data)⟩ : String) = ⟨stripList s.data⟩
  rw [stripList_idem]

lemma mem_stripList {x : Char} {l : List Char} (h : x ∈ stripList l) : x ∈ l := by
  unfold stripList at h
  simp only [List.rdropWhile, List.mem_reverse] at h
  have h1 := (List.dropWhile_suffix (l := (l.dropWhile pyIsSpace).reverse) pyIsSpace).subset h
  rw [List.mem_reverse] at h1
  exact (List.dropWhile_suffix (l := l) pyIsSpace).subset h1

lemma stripList_eq_nil_iff (l : List Char) :
    stripList l = [] ↔ ∀ x ∈ l, pyIsSpace x := by
  unfold stripList
  rw [List.rdropWhile_eq_nil_iff]
  constructor
  · intro h x hx
    by_contra hpx
    have hne : l.dropWhile pyIsSpace ≠ [] := by
      rw [ne_eq, List.dropWhile_eq_nil_iff]
      push_neg
      exact ⟨x, hx, hpx⟩
    have hh := List.head_dropWhile_not pyIsSpace l hne
    have hmem := List.head_mem hne
    have := h _ hmem
    rw [hh] at this
    exact Bool.false_ne_true this
  · intro h x hx
    exact h x ((List.dropWhile_suffix (l := l) pyIsSpace).subset hx)

lemma string_ne_empty_iff (s : String) : s ≠ "" ↔ s.data ≠ [] := by
  constructor
  · intro h hd
    exact h (by cases s; simp_all)
  · intro h he
    exact h (by rw [he])

lemma pyReplaceNl_no_nl (s : String) : '\n' ∉ (pyReplaceNl s).data := by
  simp only [pyReplaceNl, List.mem_map]
  rintro ⟨c, _, hfc⟩
  by_cases hc : c = '\n' <;> simp [hc] at hfc

lemma pyReplaceNl_eq_self {s : String} (h : '\n' ∉ s.data) : pyReplaceNl s = s := by
  show (⟨s.data.map _⟩ : String) = s
  have : s.data.map (fun c => if c = '\n' then ' ' else c) = s.data := by
    rw [show s.data = s.data.map id from (List.map_id s.data).symm]
    rw [List.map_map]
    apply List.map_congr_left
    intro c hc
    have hcn : c ≠ '\n' := fun hcn => h (by simpa [hcn] using hc)
    simp [hcn]
  rw [this]

lemma normalizeText_no_nl (t : String) : '\n' ∉ (normalizeText t).data := by
  intro h
  exact pyReplaceNl_no_nl t (mem_stripList h)

lemma normalizeText_idem (t : String) :
    normalizeText (normalizeText t) = normalizeText t := by
  show pyStrip (pyReplaceNl (normalizeText t)) = normalizeText t
  rw [pyReplaceNl_eq_self (normalizeText_no_nl t)]
  exact pyStrip_idem _

lemma pyStrip_normalizeText (t : String) :
    pyStrip (normalizeText t) = normalizeText t := pyStrip_idem _

lemma normalizeText_strip_ne_empty {raw : String} (h : pyStrip raw ≠ "") :
    normalizeText (pyStrip raw) ≠ "" := by
  rw [string_ne_empty_iff] at h ⊢
  rw [data_pyStrip] at h
  intro hc
  have hc' : stripList ((stripList raw.data).map
      (fun c => if c = '\n' then ' ' else c)) = [] := hc
  rw [stripList_eq_nil_iff] at hc'
  have hall : ¬ ∀ x ∈ stripList raw.data, pyIsSpace x := by
    intro hall
    exact h (by rw [← stripList_idem, stripList_eq_nil_iff]; exact hall)
  push_neg at hall
  obtain ⟨x, hx, hpx⟩ := hall
  have hxn : x ≠ '\n' := by
    intro hxn
    exact hpx (by simp [hxn, pyIsSpace])
  have : pyIsSpace x := by
    have := hc' x (by
      refine List.mem_map.mpr ⟨x, hx, ?_⟩
      simp [hxn])
    exact this
  exact hpx this

/-! ## Helper lemmas about the extraction loops -/

lemma extractShapes_eq (l : List Shape) :
    extractShapes l =
      ((l.filter contributes).map normalOf, (l.filter contributes).map recordOf) := by
  induction l with
  | nil => rfl
  | cons sh rest ih =>
    by_cases h1 : sh.has_text_frame
    · by_cases h2 : pyStrip (sh.text.getD "") = ""
      · have hc : contributes sh = false := by
          simp [contributes, h2]
        simp [extractShapes, ih, h1, h2, List.filter_cons, hc]
      · have hc : contributes sh = true := by
          simp [contributes, h1, h2]
        simp [extractShapes, ih, h1, h2, List.filter_cons, hc, normalOf, recordOf]
    · have hc : contributes sh = false := by
        simp [contributes, h1]
      simp [extractShapes, ih, h1, List.filter_cons, hc]

lemma extractSlide_textBlocks (page : Nat) (slide : Slide) :
    (extractSlide page slide).textBlocks = (slide.shapes.filter contributes).map normalOf := by
  simp [extractSlide, extractShapes_eq]

lemma extractSlide_textShapes (page : Nat) (slide : Slide) :
    (extractSlide page slide).textShapes = (slide.shapes.filter contributes).map recordOf := by
  simp [extractSlide, extractShapes_eq]

lemma extractSlide_page (page : Nat) (slide : Slide) :
    (extractSlide page slide).page = page := rfl

lemma extractSlide_notes (page : Nat) (slide : Slide) :
    (extractSlide page slide).notes = processNotes (read_notes slide) := rfl

lemma extractSlides_length (k : Nat) (l : List Slide) :
    (extractSlides k l).length = l.length := by
  induction l generalizing k with
  | nil => rfl
  | cons s rest ih => simp [extractSlides, ih]

lemma extractSlides_map_page (k : Nat) (l : List Slide) :
    (extractSlides k l).map SlideRecord.page = List.range' k l.length := by
  induction l generalizing k with
  | nil => rfl
  | cons s rest ih =>
    simp [extractSlides, List.range'_succ, extractSlide_page, ih]

lemma extractSlides_get (l : List Slide) (k i : Nat) (h : i < l.length)
    (h' : i < (extractSlides k l).length) :
    (extractSlides k l).get ⟨i, h'⟩ = extractSlide (k + i) (l.get ⟨i, h⟩) := by
  induction l generalizing k i with
  | nil => exact absurd h (by simp)
  | cons s rest ih =>
    cases i with
    | zero => rfl
    | succ j =>
      have hj : j < rest.length := by simpa using h
      have hj' : j < (extractSlides (k + 1) rest).length := by
        rw [extractSlides_length]; exact hj
      have := ih (k + 1) j hj hj'
      simp only [extractSlides, List.get]
      rw [this]
      congr 1
      omega

lemma mem_extractSlides {r : SlideRecord} {k : Nat} {l : List Slide}
    (h : r ∈ extractSlides k l) : ∃ i s, s ∈ l ∧ r = extractSlide i s := by
  induction l generalizing k with
  | nil => simp [extractSlides] at h
  | cons s rest ih =>
    rcases List.mem_cons.mp h with h | h
    · exact ⟨k, s, List.mem_cons_self s rest, h⟩
    · obtain ⟨i, s', hs', hr⟩ := ih h
      exact ⟨i, s', List.mem_cons_of_mem s hs', hr⟩

lemma textBlocks_prop (page : Nat) (slide : Slide) :
    ∀ t ∈ (extractSlide page slide).textBlocks,
      t ≠ "" ∧ pyStrip t = t ∧ '\n' ∉ t.data := by
  rw [extractSlide_textBlocks]
  intro t ht
  obtain ⟨sh, hsh, rfl⟩ := List.mem_map.mp ht
  have hc : contributes sh = true := List.of_mem_filter hsh
  simp only [contributes, Bool.and_eq_true, bne_iff_ne, ne_eq] at hc
  exact ⟨normalizeText_strip_ne_empty hc.2, pyStrip_normalizeText _, normalizeText_no_nl _⟩

lemma notes_prop (s : String) :
    ∀ nt ∈ processNotes s, nt ≠ "" ∧ pyStrip nt = nt := by
  unfold processNotes
  by_cases h : s = ""
  · simp [h]
  · rw [if_neg h]
    intro nt hnt
    obtain ⟨line, hline, rfl⟩ := List.mem_map.mp hnt
    have hl := List.of_mem_filter hline
    simp only [bne_iff_ne, ne_eq] at hl
    exact ⟨hl, pyStrip_idem line⟩

/-! ## The claims -/

/-- C1: For every presentation with N slides, the output slides array has
exactly N entries whose page values form the sequence 1..N in slide-traversal
order; a slide with zero shapes is still included, with its page number and
empty textBlocks and textShapes sequences. -/
theorem claim_C1 (prs : PresentationData) :
    (buildPayload prs).slides.length = prs.slides.length ∧
    (buildPayload prs).slides.map SlideRecord.page = List.range' 1 prs.slides.length ∧
    ∀ i (hi : i < prs.slides.length) (hi' : i < (buildPayload prs).slides.length),
      (prs.slides.get ⟨i, hi⟩).shapes = [] →
        ((buildPayload prs).slides.get ⟨i, hi'⟩).page = i + 1 ∧
        ((buildPayload prs).slides.get ⟨i, hi'⟩).textBlocks = [] ∧
        ((buildPayload prs).slides.get ⟨i, hi'⟩).textShapes = [] := by
  refine ⟨extractSlides_length 1 prs.slides, extractSlides_map_page 1 prs.slides, ?_⟩
  intro i hi hi' hz
  have key : (buildPayload prs).slides.get ⟨i, hi'⟩ =
      extractSlide (1 + i) (prs.slides.get ⟨i, hi⟩) :=
    extractSlides_get prs.slides 1 i hi hi'
  rw [key, extractSlide_page, extractSlide_textBlocks, extractSlide_textShapes, hz]
  exact ⟨Nat.add_comm 1 i, rfl, rfl⟩

theorem claim_C1_witness :
    ((buildPayload samplePrs).slides.get ⟨1, by decide⟩).page = 1 + 1 ∧
    ((buildPayload samplePrs).slides.get ⟨1, by decide⟩).textBlocks = [] ∧
    ((buildPayload samplePrs).slides.get ⟨1, by decide⟩).textShapes = [] :=
  (claim_C1 samplePrs).2.2 1 (by decide) (by decide) (by decide)

/-- C2: For every slide record produced, textBlocks and textShapes have equal
length, for every index the shape record's text equals the corresponding text
block, and both sequences contain exactly one entry per shape whose trimmed
text is non-empty (and which has a text frame), in shape-traversal order. -/
theorem claim_C2 (page : Nat) (slide : Slide) :
    (extractSlide page slide).textBlocks.length = (extractSlide page slide).textShapes.length ∧
    (extractSlide page slide).textShapes.map ShapeRecord.text =
      (extractSlide page slide).textBlocks ∧
    (extractSlide page slide).textBlocks = (slide.shapes.filter contributes).map normalOf ∧
    (extractSlide page slide).textShapes = (slide.shapes.filter contributes).map recordOf := by
  refine ⟨?_, ?_, extractSlide_textBlocks page slide, extractSlide_textShapes page slide⟩
  · rw [extractSlide_textBlocks, extractSlide_textShapes]
    simp
  · rw [extractSlide_textBlocks, extractSlide_textShapes, List.map_map]
    apply List.map_congr_left
    intro sh _
    rfl

/-- C3: Notes extraction never raises (the embedding is a total function):
whenever any accessor raises, the notes slide is reported absent or missing,
or the notes text frame is missing, the extractor returns the empty string
(and the slide's notes sequence is empty); on the successful path it returns
the notes text stripped of leading and trailing whitespace. -/
theorem claim_C3 (slide : Slide) :
    (slide.has_notes_slide = .raises → read_notes slide = "") ∧
    (slide.has_notes_slide = .val false → read_notes slide = "") ∧
    (slide.notes_slide = .raises → read_notes slide = "") ∧
    (slide.notes_slide = .val none → read_notes slide = "") ∧
    (∀ ns, slide.notes_slide = .val (some ns) → ns.notes_text_frame = .raises →
      read_notes slide = "") ∧
    (∀ ns, slide.notes_slide = .val (some ns) → ns.notes_text_frame = .val none →
      read_notes slide = "") ∧
    (∀ ns tf, slide.notes_slide = .val (some ns) → ns.notes_text_frame = .val (some tf) →
      tf.text = .raises → read_notes slide = "") ∧
    (∀ ns tf t, slide.has_notes_slide = .val true → slide.notes_slide = .val (some ns) →
      ns.notes_text_frame = .val (some tf) → tf.text = .val t →
      read_notes slide = pyStrip (t.getD "")) ∧
    (∀ page, read_notes slide = "" → (extractSlide page slide).notes = []) := by
  obtain ⟨shapes, hns, nsl⟩ := slide
  refine ⟨?_, ?_, ?_, ?_, ?_, ?_, ?_, ?_, ?_⟩
  · intro h
    subst h
    rfl
  · intro h
    subst h
    rfl
  · intro h
    subst h
    cases hns with
    | raises => rfl
    | val b => cases b <;> rfl
  · intro h
    subst h
    cases hns with
    | raises => rfl
    | val b => cases b <;> rfl
  · intro ns h h2
    subst h
    obtain ⟨ntf⟩ := ns
    cases h2
    cases hns with
    | raises => rfl
    | val b => cases b <;> rfl
  · intro ns h h2
    subst h
    obtain ⟨ntf⟩ := ns
    cases h2
    cases hns with
    | raises => rfl
    | val b => cases b <;> rfl
  · intro ns tf h h2 h3
    subst h
    obtain ⟨ntf⟩ := ns
    cases h2
    obtain ⟨tft⟩ := tf
    cases h3
    cases hns with
    | raises => rfl
    | val b => cases b <;> rfl
  · intro ns tf t h1 h2 h3 h4
    subst h1
    subst h2
    obtain ⟨ntf⟩ := ns
    cases h3
    obtain ⟨tft⟩ := tf
    cases h4
    rfl
  · intro page h
    rw [extractSlide_notes, h]
    rfl

theorem claim_C3_witness :
    read_notes sampleSlide1 = "A\n\nB" ∧
    read_notes sampleSlide2 = "" ∧
    (extractSlide 2 sampleSlide2).notes = [] := by
  have h1 := (claim_C3 sampleSlide1).2.2.2.2.2.2.2.1
    ⟨.val (some ⟨.val (some "A\n\nB\n  \n")⟩)⟩ ⟨.val (some "A\n\nB\n  \n")⟩
    (some "A\n\nB\n  \n") rfl rfl rfl rfl
  have h2 := (claim_C3 sampleSlide2).2.1 rfl
  have h3 := (claim_C3 sampleSlide2).2.2.2.2.2.2.2.2 2 h2
  refine ⟨?_, h2, h3⟩
  rw [h1]
  decide

/-- C4: A shape with no text frame (the capability flag `false`, which also
models an absent flag), or whose raw text (absent/None read as the empty
string) strips to the empty string, contributes to neither textBlocks nor
textShapes. -/
theorem claim_C4 (sh : Shape) (rest : List Shape)
    (h : sh.has_text_frame = false ∨ pyStrip (sh.text.getD "") = "") :
    extractShapes (sh :: rest) = extractShapes rest ∧
    (sh.text = none → pyStrip (sh.text.getD "") = "") := by
  constructor
  · rcases h with h | h
    · simp [extractShapes, h]
    · by_cases h1 : sh.has_text_frame <;> simp [extractShapes, h, h1]
  · intro ht
    rw [ht]
    rfl

theorem claim_C4_witness :
    extractShapes (wsShape :: [sampleShape]) = extractShapes [sampleShape] :=
  (claim_C4 wsShape [sampleShape] (Or.inr (by decide))).1

/-- C5: Normalization replaces every newline character with a single space
and trims again, so "Line1\nLine2" becomes "Line1 Line2"; it is idempotent,
and a text that is already trimmed and newline-free is left unchanged. -/
theorem claim_C5 :
    normalizeText "Line1\nLine2" = "Line1 Line2" ∧
    (∀ t : String, normalizeText (normalizeText t) = normalizeText t) ∧
    (∀ t : String, '\n' ∉ t.data → pyStrip t = t → normalizeText t = t) := by
  refine ⟨by decide, normalizeText_idem, ?_⟩
  intro t hnl htrim
  show pyStrip (pyReplaceNl t) = t
  rw [pyReplaceNl_eq_self hnl, htrim]

theorem claim_C5_witness : normalizeText "Line1 Line2" = "Line1 Line2" :=
  (claim_C5).2.2 "Line1 Line2" (by decide) (by decide)

/-- C6: For every slide, the notes sequence is obtained by splitting the
extracted notes string on line boundaries, trimming each line, and discarding
the lines that trim to empty; "A\n\nB\n  \n" yields ["A", "B"]. -/
theorem claim_C6 :
    (∀ (page : Nat) (slide : Slide),
      (extractSlide page slide).notes =
        ((pySplitlines (read_notes slide)).map pyStrip).filter (fun l => l != "")) ∧
    processNotes "A\n\nB\n  \n" = ["A", "B"] := by
  constructor
  · intro page slide
    rw [extractSlide_notes]
    unfold processNotes
    by_cases h : read_notes slide = ""
    · simp [h, pySplitlines, splitlinesAux]
    · rw [if_neg h, List.filter_map]
      rfl
  · decide

/-- C7: A contributing shape appends one geometry record whose left, top,
width, height fields each resolve through `geomVal`: an absent attribute
yields 0 and a present value is kept (a falsy 0 coalesces to the same 0);
the record structurally always carries all four keys. -/
theorem claim_C7 (sh : Shape) (rest : List Shape)
    (h1 : sh.has_text_frame = true) (h2 : pyStrip (sh.text.getD "") ≠ "") :
    (extractShapes (sh :: rest)).2 = recordOf sh :: (extractShapes rest).2 ∧
    recordOf sh =
      { text := normalOf sh, left := geomVal sh.left, top := geomVal sh.top,
        width := geomVal sh.width, height := geomVal sh.height } ∧
    geomVal none = 0 ∧ (∀ v : Int, geomVal (some v) = v) := by
  refine ⟨?_, rfl, rfl, ?_⟩
  · have hc : contributes sh = true := by
      simp [contributes, h1, h2]
    simp [extractShapes_eq, List.filter_cons, hc]
  · intro v
    unfold geomVal
    by_cases hv : v = 0 <;> simp [hv]

theorem claim_C7_witness :
    (extractShapes [sampleShape]).2 = recordOf sampleShape :: (extractShapes []).2 :=
  (claim_C7 sampleShape [] rfl (by decide)).1

/-- C8: If loading the presentation raises, the program performs no
filesystem event (in particular it writes nothing to the output path, so a
pre-existing file is untouched) and exits with a non-zero status; on success
the single write of the full payload happens only after every slide has been
processed, and any write event that occurs belongs to a successful load. -/
theorem claim_C8 :
    (runMain .raises).1 = [] ∧
    (runMain .raises).2 = false ∧
    (∀ prs : PresentationData,
      (runMain (.val prs)).1 = [Event.mkdirParents, Event.writeOutput (buildPayload prs)] ∧
      (runMain (.val prs)).2 = true) ∧
    (∀ (load : Attr PresentationData) (p : Payload),
      Event.writeOutput p ∈ (runMain load).1 →
        ∃ prs, load = .val prs ∧ p = buildPayload prs) := by
  refine ⟨rfl, rfl, fun prs => ⟨rfl, rfl⟩, ?_⟩
  intro load p hmem
  cases load with
  | raises => simp [runMain] at hmem
  | val prs =>
    refine ⟨prs, rfl, ?_⟩
    simp [runMain] at hmem
    exact hmem

theorem claim_C8_witness :
    ∃ prs, (Attr.val samplePrs : Attr PresentationData) = .val prs ∧
      buildPayload samplePrs = buildPayload prs :=
  (claim_C8).2.2.2 (.val samplePrs) (buildPayload samplePrs) (by simp [runMain])

/-- C9: The extraction is deterministic: any two runs of the program on the
same load result produce the same event trace (hence byte-identical output,
the serializer being a function of the written payload) and the same exit
status. -/
theorem claim_C9 (load : Attr PresentationData) (o₁ o₂ : List Event × Bool)
    (h₁ : ProgramRun load o₁) (h₂ : ProgramRun load o₂) : o₁ = o₂ :=
  h₁.symm.trans h₂

theorem claim_C9_witness :
    (([Event.mkdirParents, Event.writeOutput (buildPayload samplePrs)], true) :
        List Event × Bool) =
      ([Event.mkdirParents, Event.writeOutput (buildPayload samplePrs)], true) :=
  claim_C9 (.val samplePrs) _ _ rfl rfl

/-- C10: Every string in every slide record's textBlocks and every
textShapes entry's text is non-empty, carries no leading or trailing
whitespace, and contains no newline character; every string in every notes
sequence is non-empty and carries no leading or trailing whitespace. -/
theorem claim_C10 (prs : PresentationData) :
    ∀ r ∈ (buildPayload prs).slides,
      (∀ t ∈ r.textBlocks, t ≠ "" ∧ pyStrip t = t ∧ '\n' ∉ t.data) ∧
      (∀ sr ∈ r.textShapes, sr.text ≠ "" ∧ pyStrip sr.text = sr.text ∧
        '\n' ∉ sr.text.data) ∧
      (∀ nt ∈ r.notes, nt ≠ "" ∧ pyStrip nt = nt) := by
  intro r hr
  obtain ⟨i, s, _, rfl⟩ := mem_extractSlides hr
  refine ⟨textBlocks_prop i s, ?_, ?_⟩
  · intro sr hsr
    rw [extractSlide_textShapes] at hsr
    obtain ⟨sh, hsh, rfl⟩ := List.mem_map.mp hsr
    exact textBlocks_prop i s (recordOf sh).text
      (by rw [extractSlide_textBlocks]; exact List.mem_map.mpr ⟨sh, hsh, rfl⟩)
  · rw [extractSlide_notes]
    exact notes_prop (read_notes s)

theorem claim_C10_witness :
    "Hello World" ≠ "" ∧ pyStrip "Hello World" = "Hello World" ∧
      '\n' ∉ "Hello World".data :=
  (claim_C10 samplePrs (extractSlide 1 sampleSlide1) (by decide)).1
    "Hello World" (by decide)

end PptxExtract
